import Mathlib

/-!
Shallow embedding of the cbus4py MERG CBUS codec (src/cbus4py/cbus4py.py)
and proofs about the claims of its specification.

Bytes are modelled as `Nat` values (0 to 255); Python `int` values that can
go negative (the CAN identifier passed to `Header.__init__`) are modelled as
`Int` with Python's arbitrary-precision two's complement bitwise semantics.
Python exceptions are modelled with `Except CBusErr`.
-/

namespace CBus

/-- Error kinds corresponding to the exceptions the codec can raise.
`insufficientData` models the `IndexError` raised by `Header.from_bytes`
when fewer than two bytes are supplied; `invalidPriority` models the
`ValueError` raised by the `MajorPriority` enum lookup on an unlisted value;
`invalidIdentifier` models `ValueError("CBUS: CAN ID must be <= 127.")`;
`emptyInput` models the `ValueError("CBUS: Invalid opcode")` raised from the
caught `IndexError` in `Message.from_bytes`; `unknownOpcode` models the
`ValueError` raised by the `OpCode` enum lookup; `payloadLengthMismatch`
models `ValueError("CBUS: Invalid data for message ...")`; `oddLengthHex`
models the `ValueError` raised by `bytes.fromhex` on a malformed hex
string. -/
inductive CBusErr where
  | insufficientData
  | invalidPriority
  | invalidIdentifier
  | emptyInput
  | unknownOpcode
  | payloadLengthMismatch
  | oddLengthHex
deriving DecidableEq, Repr

/-- Python `a | b` on arbitrary-precision ints (two's complement).
`Int.negSucc m` represents the Python int `~m`, and
`~m | n = ~(m & ~n)` where `m & ~n` (the bits of `m` not in `n`) equals
`m - (m &&& n)`. -/
def pyOr (a b : Int) : Int :=
  match a, b with
  | .ofNat m, .ofNat n => .ofNat (m ||| n)
  | .ofNat m, .negSucc n => .negSucc (n - (n &&& m))
  | .negSucc m, .ofNat n => .negSucc (m - (m &&& n))
  | .negSucc m, .negSucc n => .negSucc (m &&& n)

/-- Python `a & b` on arbitrary-precision ints (two's complement). -/
def pyAnd (a b : Int) : Int :=
  match a, b with
  | .ofNat m, .ofNat n => .ofNat (m &&& n)
  | .ofNat m, .negSucc n => .ofNat (m - (m &&& n))
  | .negSucc m, .ofNat n => .ofNat (n - (n &&& m))
  | .negSucc m, .negSucc n => .negSucc (m ||| n)

/-- Enum `MajorPriority`: EMERGENCY = 0, HIGH = 1, NORMAL = 2. -/
inductive MajorPriority where
  | EMERGENCY
  | HIGH
  | NORMAL
deriving DecidableEq, Repr

/-- Numeric value of a `MajorPriority` member. -/
def MajorPriority.value : MajorPriority → Nat
  | .EMERGENCY => 0
  | .HIGH => 1
  | .NORMAL => 2

/-- Python enum call `MajorPriority(v)`: succeeds only on a listed value. -/
def MajorPriority.ofValue? : Nat → Option MajorPriority
  | 0 => some .EMERGENCY
  | 1 => some .HIGH
  | 2 => some .NORMAL
  | _ => none

/-- Enum `MinorPriority`: HIGH = 0, ABOVE_NORMAL = 1, NORMAL = 2, LOW = 3. -/
inductive MinorPriority where
  | HIGH
  | ABOVE_NORMAL
  | NORMAL
  | LOW
deriving DecidableEq, Repr

/-- Numeric value of a `MinorPriority` member. -/
def MinorPriority.value : MinorPriority → Nat
  | .HIGH => 0
  | .ABOVE_NORMAL => 1
  | .NORMAL => 2
  | .LOW => 3

/-- Python enum call `MinorPriority(v)`: succeeds only on a listed value. -/
def MinorPriority.ofValue? : Nat → Option MinorPriority
  | 0 => some .HIGH
  | 1 => some .ABOVE_NORMAL
  | 2 => some .NORMAL
  | 3 => some .LOW
  | _ => none

/-- The `Header` object: the three logical fields set by `__init__` plus the
two packed register bytes `_sidh`/`_sidl` cached by `_make_header`.  The
packed bytes are `Int` because Python computes them from `can_id`, which is
an unchecked-for-negativity `int`. -/
structure Header where
  majorPrio : MajorPriority
  minorPrio : MinorPriority
  canId : Int
  sidh : Int
  sidl : Int
deriving DecidableEq, Repr

/-- The computation of `Header._make_header`:
`sidh = major << 6; sidh |= minor << 4; sidh |= can_id >> 3;`
`sidl = (can_id & 0x7) << 5`.  Python `>>` on int is an arithmetic (floor)
shift, which is what `Int`'s `>>>` implements. -/
def Header.makeBytes (majPrio : MajorPriority) (minPrio : MinorPriority)
    (canId : Int) : Int × Int :=
  let sidh : Int := (majPrio.value : Int) <<< 6
  let sidh := pyOr sidh ((minPrio.value : Int) <<< 4)
  let sidh := pyOr sidh (canId >>> (3 : Nat))
  let sidl := (pyAnd canId 7) <<< 5
  (sidh, sidl)

/-- The `Header.__init__` constructor: rejects `can_id > 127` with
`ValueError`, stores the three fields and calls `_make_header`. -/
def Header.make? (majPrio : MajorPriority) (minPrio : MinorPriority)
    (canId : Int) : Except CBusErr Header :=
  if canId > 127 then
    .error .invalidIdentifier
  else
    let bs := Header.makeBytes majPrio minPrio canId
    .ok ⟨majPrio, minPrio, canId, bs.1, bs.2⟩

/-- The `Header.major_priority` setter: stores the new value and re-runs
`_make_header`, refreshing the cached packed bytes. -/
def Header.setMajorPriority (hd : Header) (v : MajorPriority) : Header :=
  let bs := Header.makeBytes v hd.minorPrio hd.canId
  { hd with majorPrio := v, sidh := bs.1, sidl := bs.2 }

/-- The `Header.from_bytes` factory.  `data[0]`/`data[1]` raise `IndexError`
when fewer than two bytes are present; the priority fields go through the
enum lookups (`MajorPriority((sidh >> 6) & 0x03)` can raise `ValueError`
when the field is 3); the reassembled `can_id` is handed to the
constructor. -/
def Header.from_bytes (data : List Nat) : Except CBusErr Header :=
  match data with
  | sidh :: sidl :: _ =>
    match MajorPriority.ofValue? ((sidh >>> 6) &&& 0x03) with
    | none => .error .invalidPriority
    | some majPrio =>
      match MinorPriority.ofValue? ((sidh >>> 4) &&& 0x03) with
      | none => .error .invalidPriority
      | some minPrio =>
        let canId : Nat := ((sidh &&& 0x0F) <<< 3) ||| ((sidl >>> 5) &&& 0x07)
        Header.make? majPrio minPrio (canId : Int)
  | _ => .error .insufficientData

/-- The byte values of every member of the `OpCode` enum, in declaration
order.  The enum also attaches a default minor priority and a kind
(GENERAL, CONFIG, ACCESSORY, DCC) to each member; that metadata is not
consulted by any of the decode or encode paths verified here, so only the
key set of the catalog is embedded. -/
def opcodeValues : List Nat :=
  [ -- GENERAL opcodes: ACK, NAK, HLT, BON, ARST, DBG1, EXTC, EXTC1..EXTC6
    0x00, 0x01, 0x02, 0x03, 0x07, 0x30, 0x3F, 0x5F, 0x7F, 0x9F, 0xBF, 0xDF, 0xFF,
    -- CONFIG opcodes: RSTAT, QNN, RQNP, RQMN, SNN, RQNN, NNREL, NNACK, NNLRN,
    -- NNULN, NNCLR, NNEVN, NERD, RQEVN, WRACK, BOOTM, ENUM, CMDERR, EVNLF,
    -- NVRD, NENRD, RQNPN, NUMEV, CANID, EVULN, NVSET, NVANS, PARAN, REVAL,
    -- REQEV, NEVAL, PNN, EVLRN, EVANS, NAME, PARAMS, ENRSP, EVLRNI
    0x0C, 0x0D, 0x10, 0x11, 0x42, 0x50, 0x51, 0x52, 0x53,
    0x54, 0x55, 0x56, 0x57, 0x58, 0x59, 0x5C, 0x5D, 0x6F, 0x70,
    0x71, 0x72, 0x73, 0x74, 0x75, 0x95, 0x96, 0x97, 0x9B, 0x9C,
    0xB2, 0xB5, 0xB6, 0xD2, 0xD3, 0xE2, 0xEF, 0xF2, 0xF5,
    -- ACCESSORY opcodes: RQDAT, RQDDS, ACON, ACOF, AREQ, ARON, AROF, ASON,
    -- ASOF, ASRQ, ARSON, ARSOF, ACON1, ACOF1, ARON1, AROF1, ASON1, ASOF1,
    -- ARSON1, ARSOF1, FCLK, ACON2, ACOF2, ARON2, AROF2, ASON2, ASOF2,
    -- ARSON2, ARSOF2, ACON3, ACOF3, ARON3, AROF3, ACDAT, ARDAT, ASON3,
    -- ASOF3, DDES, DDRS, ARSON3, ARSOF3
    0x5A, 0x5B, 0x90, 0x91, 0x92, 0x93, 0x94, 0x98,
    0x99, 0x9A, 0x9D, 0x9E, 0xB0, 0xB1, 0xB3, 0xB4, 0xB8, 0xB9,
    0xBD, 0xBE, 0xCF, 0xD0, 0xD1, 0xD4, 0xD5, 0xD8, 0xD9,
    0xDD, 0xDE, 0xF0, 0xF1, 0xF3, 0xF4, 0xF6, 0xF7, 0xF8,
    0xF9, 0xFA, 0xFB, 0xFD, 0xFE,
    -- DCC opcodes: TOF, TON, ESTOP, RTOF, RTON, RESTP, KLOC, QLOC, DKEEP,
    -- RLOC, QCON, ALOC, STMOD, PCON, KCON, DSPD, DFLG, DFNON, DFNOF, SSTAT,
    -- DFUN, GLOC, ERR, RDCC3, WCVO, WCVB, QCVS, PCVS, RDCC4, WCVS, RDCC5,
    -- WCVOA, RDCC6, PLOC, STAT
    0x04, 0x05, 0x06, 0x08, 0x09, 0x0A, 0x21, 0x22, 0x23,
    0x40, 0x41, 0x43, 0x44, 0x45, 0x46, 0x47, 0x48, 0x49, 0x4A, 0x4C,
    0x60, 0x61, 0x63, 0x80, 0x82, 0x83, 0x84, 0x85, 0xA0, 0xA2, 0xC0,
    0xC1, 0xE0, 0xE1, 0xE3 ]

/-- An `OpCode` is a byte value present in the catalog. -/
def OpCode : Type := {n : Nat // n ∈ opcodeValues}

instance : DecidableEq OpCode := Subtype.instDecidableEq

/-- The `OpCode.byte_count` property: number of payload bytes following the
opcode, derived as `value >> 5`. -/
def OpCode.byte_count (op : OpCode) : Nat := op.val >>> 5

/-- The `Message` object: an opcode and its payload bytes. -/
structure Message where
  opcode : OpCode
  data : List Nat
deriving DecidableEq

/-- The `Message.__init__` constructor.  With an explicit payload whose
length differs from the opcode's byte count it raises `ValueError`; with no
payload it substitutes a zero-filled payload of the correct length. -/
def Message.make? (opcode : OpCode) (data : Option (List Nat)) :
    Except CBusErr Message :=
  let byteCnt := opcode.byte_count
  match data with
  | some d =>
    if d.length ≠ byteCnt then .error .payloadLengthMismatch
    else .ok ⟨opcode, d⟩
  | none => .ok ⟨opcode, List.replicate byteCnt 0⟩

/-- The `Message.from_bytes` factory: `data[0]` on an empty input raises
`IndexError`, re-raised as `ValueError`; an uncatalogued first byte makes
the `OpCode` enum lookup raise `ValueError`; the remaining bytes go through
the constructor. -/
def Message.from_bytes (data : List Nat) : Except CBusErr Message :=
  match data with
  | [] => .error .emptyInput
  | b :: rest =>
    if h : b ∈ opcodeValues then Message.make? ⟨b, h⟩ (some rest)
    else .error .unknownOpcode

/-- Uppercase hex digit (as an ASCII byte) of a value below 16, as produced
by Python's `"%02X"` formatting. -/
def hexDigitUpper (n : Nat) : Nat := if n < 10 then 48 + n else 55 + n

/-- Two-digit uppercase hex rendering of a byte, as an ASCII byte pair. -/
def byteToHexUpper (b : Nat) : List Nat :=
  [hexDigitUpper (b / 16), hexDigitUpper (b % 16)]

/-- The `Message.ascii` property: the opcode byte and each payload byte as
two uppercase hex digits. -/
def Message.ascii (m : Message) : List Nat :=
  byteToHexUpper m.opcode.val ++ (m.data.map byteToHexUpper).flatten

/-- The `Message.make_module_name` factory models
`struct.pack("!7s", name[:7].encode("ascii"))`: the name (modelled as its
list of ASCII byte values) is cut to its first 7 characters and the `7s`
struct format pads the result with NUL bytes on the right up to 7 bytes.
`0xE2` is the value of `OpCode.NAME`. -/
def Message.make_module_name (name : List Nat) : Except CBusErr Message :=
  let packed := (name.take 7).take 7 ++
    List.replicate (7 - (name.take 7).length) 0
  Message.make? ⟨0xE2, by decide⟩ (some packed)

/-- The `Frame` object: header, optional message and RTR flag. -/
structure Frame where
  header : Header
  message : Option Message
  rtr : Bool
deriving DecidableEq

/-- Python `Header.__eq__`: two headers are equal iff their packed
`sidl`/`sidh` bytes are equal. -/
def Header.eqPy (a b : Header) : Prop := a.sidl = b.sidl ∧ a.sidh = b.sidh

instance (a b : Header) : Decidable (Header.eqPy a b) := by
  unfold Header.eqPy; infer_instance

/-- Python `Frame.__eq__`: compares header (per `Header.__eq__`) and
message; the RTR flag is excluded from equality. -/
def Frame.eqPy (a b : Frame) : Prop :=
  Header.eqPy a.header b.header ∧ a.message = b.message

instance (a b : Frame) : Decidable (Frame.eqPy a b) := by
  unfold Frame.eqPy; infer_instance

/-- The header part of the wire rendering built by `Frame.net_encoded_frame`:
`self._header.ascii_header.decode("ascii").upper()`, i.e. the packed
register bytes `sidh`, `sidl` as four uppercase hex digits.  The packed
bytes of a header built from a byte-range identifier are non-negative, and
`bytes([...])` would raise for out-of-range values, so the rendering reads
them as naturals. -/
def Header.asciiHeaderUpper (hd : Header) : List Nat :=
  byteToHexUpper hd.sidh.toNat ++ byteToHexUpper hd.sidl.toNat

/-- The `Frame.net_encoded_frame` property:
`":S" + header-hex + ("N" if not RTR else "R") + message.ascii + ";"`,
as ASCII byte values (58 is the colon, 83 is S, 78 is N, 82 is R and 59 is
the semicolon). -/
def Frame.net_encoded_frame (f : Frame) : List Nat :=
  [58, 83] ++ f.header.asciiHeaderUpper
    ++ [if f.rtr then 82 else 78]
    ++ (match f.message with
        | some m => m.ascii
        | none => [])
    ++ [59]

/-- Membership in the regex character class `[0-9a-fA-F]`. -/
def isHexDigit (c : Nat) : Bool :=
  (48 ≤ c && c ≤ 57) || (97 ≤ c && c ≤ 102) || (65 ≤ c && c ≤ 70)

/-- Numeric value of an ASCII hex digit, as read by `bytes.fromhex`. -/
def hexVal (c : Nat) : Nat :=
  if c ≤ 57 then c - 48 else if 97 ≤ c then c - 87 else c - 55

/-- Python `bytes.fromhex` on a string of hex digits: pairs of digits
become bytes; an odd count of digits raises `ValueError`. -/
def bytesFromHex? : List Nat → Option (List Nat)
  | [] => some []
  | [_] => none
  | c1 :: c2 :: rest =>
    (bytesFromHex? rest).map (fun bs => (hexVal c1 * 16 + hexVal c2) :: bs)

/-- Longest run of hex digits at the head of the buffer, and the rest:
the behaviour of the greedy `[0-9a-fA-F]+` once its backtracking is
resolved (a shorter run can never make the following `;` match, since the
run is followed by a non-hex-digit). -/
def takeHexRun : List Nat → List Nat × List Nat
  | [] => ([], [])
  | c :: cs =>
    if isHexDigit c then
      let p := takeHexRun cs
      (c :: p.1, p.2)
    else ([], c :: cs)

/-- One attempt of the regex `:S([0-9a-fA-F]{4})([NR])([0-9a-fA-F]+);`
anchored at the head of the buffer.  On success, returns the three capture
groups (the four header digits, the mode byte, the message digit run) and
the buffer after the semicolon. -/
def matchFrameAt (l : List Nat) : Option ((List Nat × Nat × List Nat) × List Nat) :=
  match l with
  | c0 :: c5 :: c1 :: c2 :: c3 :: c4 :: m :: rest =>
    if c0 = 58 ∧ c5 = 83 ∧ isHexDigit c1 ∧ isHexDigit c2 ∧ isHexDigit c3 ∧
        isHexDigit c4 ∧ (m = 78 ∨ m = 82) then
      match takeHexRun rest with
      | (run, rest2) =>
        match run, rest2 with
        | _ :: _, q :: rest3 =>
          if q = 59 then some (([c1, c2, c3, c4], m, run), rest3) else none
        | _, _ => none
    else none
  | _ => none

/-- Fuelled scan: at each position try the anchored match; on success emit
the groups and continue after the match, otherwise slide one byte to the
right.  This is `re.findall` with the frame pattern: leftmost,
non-overlapping matches in order.  The fuel only serves the termination
argument; `findallFrames` supplies enough for the whole buffer. -/
def findallAux : Nat → List Nat → List (List Nat × Nat × List Nat)
  | 0, _ => []
  | _ + 1, [] => []
  | fuel + 1, c :: cs =>
    match matchFrameAt (c :: cs) with
    | some (g, rest) => g :: findallAux fuel rest
    | none => findallAux fuel cs

/-- All matches of the frame regex in the buffer (`Frame.format.findall`). -/
def findallFrames (l : List Nat) : List (List Nat × Nat × List Nat) :=
  findallAux l.length l

/-- The comparison `frame[1] == "R"` in `Frame.from_network_bytes`:
`frame[1]` is a one-byte `bytes` object (a regex group of a byte-string
match) while `"R"` is a `str`, and in Python 3 a `bytes`-to-`str`
comparison is always `False` regardless of the byte's value. -/
def pyBytesEqStrR (_b : Nat) : Bool := false

/-- The body of the loop in `Frame.from_network_bytes`: decode one regex
match into a `Frame` (header from the four header digits, message from the
digit run, RTR flag from the mode-byte comparison). -/
def decodeMatch (g : List Nat × Nat × List Nat) : Except CBusErr Frame := do
  let hdrBytes ← match bytesFromHex? g.1 with
    | none => Except.error CBusErr.oddLengthHex
    | some bs => Except.ok bs
  let header ← Header.from_bytes hdrBytes
  let msgBytes ← match bytesFromHex? g.2.2 with
    | none => Except.error CBusErr.oddLengthHex
    | some bs => Except.ok bs
  let msg ← Message.from_bytes msgBytes
  return ⟨header, some msg, pyBytesEqStrR g.2.1⟩

/-- The `for frame in frames_spec` loop of `Frame.from_network_bytes`:
decode each match in order, appending to the result list; the first
exception propagates. -/
def decodeFrames : List (List Nat × Nat × List Nat) → Except CBusErr (List Frame)
  | [] => .ok []
  | g :: gs => do
    let f ← decodeMatch g
    let fs ← decodeFrames gs
    return f :: fs

/-- The `Frame.from_network_bytes` factory: run the regex over the buffer
and decode each match in order. -/
def Frame.from_network_bytes (data : List Nat) : Except CBusErr (List Frame) :=
  decodeFrames (findallFrames data)

/-- The header value produced by a successful `Header.__init__` call on a
CAN identifier given as a natural number. -/
def encHeader (majPrio : MajorPriority) (minPrio : MinorPriority) (cid : Nat) : Header :=
  ⟨majPrio, minPrio, (cid : Int),
    (Header.makeBytes majPrio minPrio (cid : Int)).1,
    (Header.makeBytes majPrio minPrio (cid : Int)).2⟩

/-- The opcode `NAME` (0xE2), used by `Message.make_module_name`. -/
def nameOpCode : OpCode := ⟨0xE2, by decide⟩

/-- Well-formedness of one regex match, as needed for its decoding to
succeed: the four header digits decode to bytes whose major-priority field
is a listed enum value, and the message digit run has even length and
decodes to a catalogued opcode byte followed by exactly the payload bytes
its byte count demands. -/
def goodMatch (g : List Nat × Nat × List Nat) : Bool :=
  (match bytesFromHex? g.1 with
   | some (b0 :: _ :: _) => decide ((b0 >>> 6) &&& 3 ≠ 3)
   | _ => false) &&
  (match bytesFromHex? g.2.2 with
   | some (b :: rest) => decide (b ∈ opcodeValues) && decide (rest.length = b >>> 5)
   | _ => false)

/-- A frame with a valid header and no message, as built for example by
`Frame.make_void`. -/
def frameNoMsg : Frame := ⟨encHeader .EMERGENCY .HIGH 0, none, false⟩

deriving instance DecidableEq for Except

/-! Helper lemmas. -/

/-- Every catalogued opcode value is a byte. -/
theorem opcodeValues_lt_256 : ∀ v ∈ opcodeValues, v < 256 := by
  set_option maxRecDepth 4096 in decide

/-- Uppercase hex digits of in-range values are in the regex character
class. -/
theorem isHexDigit_hexDigitUpper : ∀ x, x < 16 → isHexDigit (hexDigitUpper x) = true := by
  decide

/-- Reading back an uppercase hex digit restores the value. -/
theorem hexVal_hexDigitUpper : ∀ x, x < 16 → hexVal (hexDigitUpper x) = x := by
  decide

/-- Both digits of a byte's hex rendering are in the regex character
class. -/
theorem isHexDigit_byteToHexUpper (b : Nat) (hb : b < 256) :
    ∀ c ∈ byteToHexUpper b, isHexDigit c = true := by
  intro c hc
  simp only [byteToHexUpper, List.mem_cons, List.mem_singleton] at hc
  rcases hc with rfl | rfl | hc
  · exact isHexDigit_hexDigitUpper _ (by omega)
  · exact isHexDigit_hexDigitUpper _ (by omega)
  · cases hc

/-- Parsing a hex pair off the front of a digit stream yields the byte. -/
theorem bytesFromHex?_cons (b : Nat) (hb : b < 256) (rest : List Nat) :
    bytesFromHex? (byteToHexUpper b ++ rest) =
      (bytesFromHex? rest).map (fun bs => b :: bs) := by
  simp only [byteToHexUpper, List.cons_append, List.nil_append, bytesFromHex?,
    hexVal_hexDigitUpper (b / 16) (by omega), hexVal_hexDigitUpper (b % 16) (by omega)]
  have hb' : b / 16 * 16 + b % 16 = b := by omega
  rw [hb']
  rfl

/-- Parsing the hex rendering of a byte list restores the list. -/
theorem bytesFromHex?_flatten :
    ∀ bs : List Nat, (∀ b ∈ bs, b < 256) →
      bytesFromHex? ((bs.map byteToHexUpper).flatten) = some bs := by
  intro bs
  induction bs with
  | nil => intro _; rfl
  | cons b t ih =>
    intro h
    simp only [List.map_cons, List.flatten_cons]
    rw [bytesFromHex?_cons b (h b (by simp)) _, ih (fun x hx => h x (by simp [hx]))]
    rfl

/-- The remainder left by `takeHexRun` is no longer than the input. -/
theorem takeHexRun_rest_le : ∀ l : List Nat, (takeHexRun l).2.length ≤ l.length := by
  intro l
  induction l with
  | nil => simp [takeHexRun]
  | cons c cs ih =>
    simp only [takeHexRun]
    split
    · simpa using Nat.le_succ_of_le ih
    · simp

/-- On a buffer that starts with a hex-digit run closed off by a non-digit,
`takeHexRun` returns exactly that run. -/
theorem takeHexRun_all_hex :
    ∀ xs : List Nat, (∀ c ∈ xs, isHexDigit c = true) →
      ∀ y ys, isHexDigit y = false → takeHexRun (xs ++ y :: ys) = (xs, y :: ys) := by
  intro xs
  induction xs with
  | nil =>
    intro _ y ys hy
    simp [takeHexRun, hy]
  | cons c cs ih =>
    intro h y ys hy
    have ih' := ih (fun d hd => h d (by simp [hd])) y ys hy
    simp [takeHexRun, h c (by simp), ih']
/-- A successful anchored match consumes at least one byte. -/
theorem matchFrameAt_rest_lt :
    ∀ (l : List Nat) g rest, matchFrameAt l = some (g, rest) → rest.length < l.length := by
  intro l g rest h
  rcases l with _ | ⟨c0, _ | ⟨c5, _ | ⟨c1, _ | ⟨c2, _ | ⟨c3, _ | ⟨c4, _ | ⟨m, tail⟩⟩⟩⟩⟩⟩⟩ <;>
    simp only [matchFrameAt] at h
  · cases h
  · cases h
  · cases h
  · cases h
  · cases h
  · cases h
  · cases h
  · split at h
    · rcases htr : takeHexRun tail with ⟨run, rest2⟩
      rw [htr] at h
      have hlen := takeHexRun_rest_le tail
      rw [htr] at hlen
      rcases run with _ | ⟨r, rs⟩
      · cases h
      · rcases rest2 with _ | ⟨q, qs⟩
        · cases h
        · simp only at h
          split at h
          · simp only [Option.some.injEq, Prod.mk.injEq] at h
            obtain ⟨-, hres⟩ := h
            subst hres
            simp only [List.length_cons] at hlen ⊢
            omega
          · cases h
    · cases h

/-- The anchored match succeeds on an exactly-shaped buffer: the frame
lead-in, four hex digits, a mode byte, a non-empty hex-digit run, a
semicolon, then anything. -/
theorem matchFrameAt_exact (c1 c2 c3 c4 mo : Nat) (body tail : List Nat)
    (h1 : isHexDigit c1 = true) (h2 : isHexDigit c2 = true)
    (h3 : isHexDigit c3 = true) (h4 : isHexDigit c4 = true)
    (hmo : mo = 78 ∨ mo = 82)
    (hbody : ∀ c ∈ body, isHexDigit c = true) (hne : body ≠ []) :
    matchFrameAt (58 :: 83 :: c1 :: c2 :: c3 :: c4 :: mo :: (body ++ 59 :: tail)) =
      some (([c1, c2, c3, c4], mo, body), tail) := by
  simp only [matchFrameAt]
  rw [if_pos ⟨by trivial, by trivial, h1, h2, h3, h4, hmo⟩]
  rw [takeHexRun_all_hex body hbody 59 tail (by decide)]
  rcases body with _ | ⟨b, bs⟩
  · cases hne rfl
  · simp

/-- An empty buffer yields no matches for any amount of fuel. -/
theorem findallAux_nil : ∀ n, findallAux n [] = [] := by
  intro n
  cases n <;> rfl

/-- The fuelled scan does not depend on the fuel once it covers the
buffer length. -/
theorem findallAux_congr :
    ∀ (n₁ : Nat) (l : List Nat) (n₂ : Nat), l.length ≤ n₁ → l.length ≤ n₂ →
      findallAux n₁ l = findallAux n₂ l := by
  intro n₁
  induction n₁ with
  | zero =>
    intro l n₂ h₁ _
    rw [List.length_eq_zero.mp (Nat.le_zero.mp h₁)]
    rw [findallAux_nil, findallAux_nil]
  | succ k ih =>
    intro l n₂ h₁ h₂
    rcases l with _ | ⟨c, cs⟩
    · rw [findallAux_nil, findallAux_nil]
    · rcases n₂ with _ | m
      · simp at h₂
      · rcases hm : matchFrameAt (c :: cs) with _ | ⟨g, rest⟩
        · simp only [findallAux, hm]
          have hcs : cs.length ≤ k := by simp at h₁; omega
          have hcs' : cs.length ≤ m := by simp at h₂; omega
          exact ih cs m hcs hcs'
        · simp only [findallAux, hm]
          have hr := matchFrameAt_rest_lt (c :: cs) g rest hm
          have hrk : rest.length ≤ k := by simp at h₁ hr; omega
          have hrm : rest.length ≤ m := by simp at h₂ hr; omega
          rw [ih rest m hrk hrm]

/-- Unfolding the scan at a successful match position. -/
theorem findallFrames_cons_match {c : Nat} {cs : List Nat} {g rest}
    (h : matchFrameAt (c :: cs) = some (g, rest)) :
    findallFrames (c :: cs) = g :: findallFrames rest := by
  have hr := matchFrameAt_rest_lt (c :: cs) g rest h
  simp only [findallFrames, List.length_cons, findallAux, h]
  rw [findallAux_congr cs.length rest rest.length (by simp at hr; omega) (Nat.le_refl _)]

/-- Unfolding the scan at a non-matching position. -/
theorem findallFrames_cons_nomatch {c : Nat} {cs : List Nat}
    (h : matchFrameAt (c :: cs) = none) :
    findallFrames (c :: cs) = findallFrames cs := by
  simp only [findallFrames, List.length_cons, findallAux, h]

/-- A construction with an in-range identifier succeeds and yields exactly
the fields-plus-packed-bytes value `encHeader`. -/
theorem header_make?_ok (majPrio : MajorPriority) (minPrio : MinorPriority)
    (cid : Nat) (h : cid ≤ 127) :
    Header.make? majPrio minPrio (cid : Int) = .ok (encHeader majPrio minPrio cid) := by
  have hlt : ¬((cid : Int) > 127) := by exact_mod_cast Nat.not_lt.mpr h
  simp [Header.make?, encHeader, hlt]

/-- Decoding the packed register bytes of a constructed header restores the
header exactly. -/
theorem header_unpack (majPrio : MajorPriority) (minPrio : MinorPriority) :
    ∀ cid : Nat, cid ≤ 127 →
      Header.from_bytes [(encHeader majPrio minPrio cid).sidh.toNat,
        (encHeader majPrio minPrio cid).sidl.toNat] = .ok (encHeader majPrio minPrio cid) := by
  cases majPrio <;> cases minPrio <;> decide

/-- The packed register bytes of a constructed header are in byte range. -/
theorem encHeader_bytes_lt (majPrio : MajorPriority) (minPrio : MinorPriority) :
    ∀ cid : Nat, cid ≤ 127 →
      (encHeader majPrio minPrio cid).sidh.toNat < 256 ∧
        (encHeader majPrio minPrio cid).sidl.toNat < 256 := by
  cases majPrio <;> cases minPrio <;> decide

/-- A major-priority field other than 3 has an enum member. -/
theorem majorPriority_ofValue?_some (v : Nat) (hv : v ≤ 3) (hne : v ≠ 3) :
    ∃ p, MajorPriority.ofValue? v = some p := by
  interval_cases v
  · exact ⟨_, rfl⟩
  · exact ⟨_, rfl⟩
  · exact ⟨_, rfl⟩
  · cases hne rfl

/-- Every two-bit minor-priority field has an enum member. -/
theorem minorPriority_ofValue?_some (v : Nat) (hv : v ≤ 3) :
    ∃ p, MinorPriority.ofValue? v = some p := by
  interval_cases v <;> exact ⟨_, rfl⟩

/-- Header decoding succeeds on any two or more bytes whose major-priority
field is not 3, and the identifier it reconstructs is in range. -/
theorem header_from_bytes_ok (b0 b1 : Nat) (bs : List Nat)
    (h : (b0 >>> 6) &&& 3 ≠ 3) :
    ∃ hd, Header.from_bytes (b0 :: b1 :: bs) = .ok hd ∧ 0 ≤ hd.canId ∧ hd.canId ≤ 127 := by
  obtain ⟨majPrio, hmaj⟩ := majorPriority_ofValue?_some _ Nat.and_le_right h
  obtain ⟨minPrio, hmin⟩ := minorPriority_ofValue?_some ((b0 >>> 4) &&& 3) Nat.and_le_right
  have hc1 : (b0 &&& 0x0F) <<< 3 < 128 := by
    have hb : b0 &&& 15 ≤ 15 := Nat.and_le_right
    rw [Nat.shiftLeft_eq]
    omega
  have hc2 : (b1 >>> 5) &&& 7 < 128 := by
    have hb : (b1 >>> 5) &&& 7 ≤ 7 := Nat.and_le_right
    omega
  have hc : ((b0 &&& 0x0F) <<< 3) ||| ((b1 >>> 5) &&& 7) < 128 := by
    have h128 : (128 : Nat) = 2 ^ 7 := by norm_num
    rw [h128] at hc1 hc2 ⊢
    exact Nat.or_lt_two_pow hc1 hc2
  have hle : ((b0 &&& 0x0F) <<< 3) ||| ((b1 >>> 5) &&& 7) ≤ 127 := by omega
  have hint : ¬(((((b0 &&& 0x0F) <<< 3) ||| ((b1 >>> 5) &&& 7) : Nat) : Int) > 127) := by
    exact_mod_cast Nat.not_lt.mpr hle
  refine ⟨encHeader majPrio minPrio (((b0 &&& 0x0F) <<< 3) ||| ((b1 >>> 5) &&& 7)),
    ?_, ?_, ?_⟩
  · simp only [Header.from_bytes, hmaj, hmin]
    exact header_make?_ok majPrio minPrio _ hle
  · exact Int.natCast_nonneg _
  · show ((((b0 &&& 0x0F) <<< 3) ||| ((b1 >>> 5) &&& 7) : Nat) : Int) ≤ 127
    exact_mod_cast hle

/-- Decoding the byte string built from a catalogued opcode and a payload
of exactly its byte count yields the directly constructed message. -/
theorem message_from_bytes_encode (op : OpCode) (payload : List Nat)
    (hlen : payload.length = op.byte_count) :
    Message.from_bytes (op.val :: payload) = .ok ⟨op, payload⟩ := by
  rcases op with ⟨v, hv⟩
  simp only [OpCode.byte_count] at hlen
  simp [Message.from_bytes, Message.make?, hv, OpCode.byte_count, hlen]

/-- Computation of `decodeMatch` when all four stages succeed: the RTR flag
of the produced frame is the constant-false byte-to-string comparison. -/
theorem decodeMatch_eq (g : List Nat × Nat × List Nat) (hb mb : List Nat)
    (hd : Header) (m : Message)
    (h1 : bytesFromHex? g.1 = some hb) (h2 : Header.from_bytes hb = .ok hd)
    (h3 : bytesFromHex? g.2.2 = some mb) (h4 : Message.from_bytes mb = .ok m) :
    decodeMatch g = .ok ⟨hd, some m, false⟩ := by
  simp [decodeMatch, h1, h2, h3, h4, pyBytesEqStrR, bind, Except.bind,
    Functor.map, Except.map, pure, Except.pure]

/-- Whatever the match contents, a successfully decoded frame carries a
false RTR flag, because the mode group is compared against a `str`. -/
theorem decodeMatch_rtr_false (g : List Nat × Nat × List Nat) (f : Frame)
    (h : decodeMatch g = .ok f) : f.rtr = false := by
  rcases hA : bytesFromHex? g.1 with _ | hb <;>
    simp only [decodeMatch, hA, bind, Except.bind] at h
  · cases h
  · rcases hB : Header.from_bytes hb with e | hd <;> simp only [hB] at h
    · cases h
    · rcases hC : bytesFromHex? g.2.2 with _ | mb <;> simp only [hC] at h
      · cases h
      · rcases hD : Message.from_bytes mb with e2 | m <;>
          simp [hD, Functor.map, Except.map, pure, Except.pure, pyBytesEqStrR] at h
        rw [← h]

/-- Every frame produced by the decoding loop has a false RTR flag. -/
theorem decodeFrames_rtr_false :
    ∀ gs fs, decodeFrames gs = .ok fs → ∀ f ∈ fs, f.rtr = false := by
  intro gs
  induction gs with
  | nil =>
    intro fs h f hf
    simp only [decodeFrames, Except.ok.injEq] at h
    rw [← h] at hf
    cases hf
  | cons g gs ih =>
    intro fs h f hf
    rcases h0 : decodeMatch g with e | f0
    · simp only [decodeFrames, h0, bind, Except.bind] at h
      cases h
    · rcases h1 : decodeFrames gs with e1 | fs0
      · simp only [decodeFrames, h0, h1, bind, Except.bind] at h
        cases h
      · simp only [decodeFrames, h0, h1, bind, Except.bind, pure, Except.pure,
          Except.ok.injEq] at h
        subst h
        rcases List.mem_cons.mp hf with rfl | hmem
        · exact decodeMatch_rtr_false g f h0
        · exact ih fs0 h1 f hmem

/-- A well-formed match decodes successfully. -/
theorem decodeMatch_ok_of_good (g : List Nat × Nat × List Nat)
    (hg : goodMatch g = true) : ∃ f, decodeMatch g = .ok f := by
  rw [goodMatch, Bool.and_eq_true] at hg
  obtain ⟨hg1, hg2⟩ := hg
  rcases hhex : bytesFromHex? g.1 with _ | bs
  · rw [hhex] at hg1; cases hg1
  · rw [hhex] at hg1
    rcases bs with _ | ⟨b0, _ | ⟨b1, hrest⟩⟩
    · cases hg1
    · cases hg1
    · have hb0 : (b0 >>> 6) &&& 3 ≠ 3 := of_decide_eq_true hg1
      obtain ⟨hd, hhd, -, -⟩ := header_from_bytes_ok b0 b1 hrest hb0
      rcases hmhex : bytesFromHex? g.2.2 with _ | ms
      · rw [hmhex] at hg2; cases hg2
      · rw [hmhex] at hg2
        rcases ms with _ | ⟨b, mrest⟩
        · cases hg2
        · rw [Bool.and_eq_true] at hg2
          have hop : b ∈ opcodeValues := of_decide_eq_true hg2.1
          have hlen : mrest.length = b >>> 5 := of_decide_eq_true hg2.2
          have hmsg : Message.from_bytes (b :: mrest) = .ok ⟨⟨b, hop⟩, mrest⟩ :=
            message_from_bytes_encode ⟨b, hop⟩ mrest hlen
          exact ⟨_, decodeMatch_eq g _ _ hd _ hhex hhd hmhex hmsg⟩

/-- The decoding loop succeeds on a list of well-formed matches and yields
one frame per match. -/
theorem decodeFrames_ok_of_good :
    ∀ gs : List (List Nat × Nat × List Nat), (∀ g ∈ gs, goodMatch g = true) →
      ∃ fs, decodeFrames gs = .ok fs ∧ fs.length = gs.length := by
  intro gs
  induction gs with
  | nil => intro _; exact ⟨[], rfl, rfl⟩
  | cons g gs ih =>
    intro h
    obtain ⟨f, hf⟩ := decodeMatch_ok_of_good g (h g (by simp))
    obtain ⟨fs, hfs, hflen⟩ := ih (fun x hx => h x (by simp [hx]))
    refine ⟨f :: fs, ?_, by simp [hflen]⟩
    simp [decodeFrames, bind, Except.bind, hf, hfs, pure, Except.pure]

/-- Parsing the concatenated hex renderings of two bytes yields the two
bytes. -/
theorem bytesFromHex?_pair (a bv : Nat) (ha : a < 256) (hb : bv < 256) :
    bytesFromHex? (byteToHexUpper a ++ byteToHexUpper bv) = some [a, bv] := by
  rw [bytesFromHex?_cons a ha]
  have h1 : bytesFromHex? (byteToHexUpper bv) = some [bv] := by
    have h2 := bytesFromHex?_cons bv hb []
    simpa using h2
  rw [h1]
  rfl

/-- Every character of a message's hex rendering is a hex digit. -/
theorem message_ascii_hex (op : OpCode) (payload : List Nat)
    (hbytes : ∀ b ∈ payload, b < 256) :
    ∀ c ∈ Message.ascii ⟨op, payload⟩, isHexDigit c = true := by
  intro c hc
  have hop256 : op.val < 256 := opcodeValues_lt_256 op.val op.property
  simp only [Message.ascii, List.mem_append] at hc
  rcases hc with hc | hc
  · exact isHexDigit_byteToHexUpper op.val hop256 c hc
  · rw [List.mem_flatten] at hc
    obtain ⟨l, hl, hcl⟩ := hc
    rw [List.mem_map] at hl
    obtain ⟨b, hb, rfl⟩ := hl
    exact isHexDigit_byteToHexUpper b (hbytes b hb) c hcl

/-- Parsing back a message's hex rendering yields the message bytes. -/
theorem bytesFromHex?_message_ascii (op : OpCode) (payload : List Nat)
    (hbytes : ∀ b ∈ payload, b < 256) :
    bytesFromHex? (Message.ascii ⟨op, payload⟩) = some (op.val :: payload) := by
  have hop256 : op.val < 256 := opcodeValues_lt_256 op.val op.property
  simp only [Message.ascii]
  rw [bytesFromHex?_cons op.val hop256, bytesFromHex?_flatten payload hbytes]
  rfl

/-- Round trip of a whole frame that carries a message: the wire encoding
scans back as exactly one frame whose header and message coincide with the
original and whose RTR flag is false. -/
theorem frame_encode_decode (majPrio : MajorPriority) (minPrio : MinorPriority)
    (cid : Nat) (hcid : cid ≤ 127) (op : OpCode) (payload : List Nat)
    (hlen : payload.length = op.byte_count)
    (hbytes : ∀ b ∈ payload, b < 256) (rtr : Bool) :
    Frame.from_network_bytes
        (Frame.net_encoded_frame
          ⟨encHeader majPrio minPrio cid, some ⟨op, payload⟩, rtr⟩) =
      .ok [⟨encHeader majPrio minPrio cid, some ⟨op, payload⟩, false⟩] := by
  obtain ⟨hs1, hs2⟩ := encHeader_bytes_lt majPrio minPrio cid hcid
  have hop256 : op.val < 256 := opcodeValues_lt_256 op.val op.property
  have hall := message_ascii_hex op payload hbytes
  have hne : Message.ascii ⟨op, payload⟩ ≠ [] := by
    simp [Message.ascii, byteToHexUpper]
  have hnet : Frame.net_encoded_frame
      ⟨encHeader majPrio minPrio cid, some ⟨op, payload⟩, rtr⟩ =
      58 :: 83 ::
        hexDigitUpper ((encHeader majPrio minPrio cid).sidh.toNat / 16) ::
        hexDigitUpper ((encHeader majPrio minPrio cid).sidh.toNat % 16) ::
        hexDigitUpper ((encHeader majPrio minPrio cid).sidl.toNat / 16) ::
        hexDigitUpper ((encHeader majPrio minPrio cid).sidl.toNat % 16) ::
        (if rtr then 82 else 78) ::
        (Message.ascii ⟨op, payload⟩ ++ 59 :: []) := by
    simp [Frame.net_encoded_frame, Header.asciiHeaderUpper, byteToHexUpper]
  have hmatch := matchFrameAt_exact
    (hexDigitUpper ((encHeader majPrio minPrio cid).sidh.toNat / 16))
    (hexDigitUpper ((encHeader majPrio minPrio cid).sidh.toNat % 16))
    (hexDigitUpper ((encHeader majPrio minPrio cid).sidl.toNat / 16))
    (hexDigitUpper ((encHeader majPrio minPrio cid).sidl.toNat % 16))
    (if rtr then 82 else 78) (Message.ascii ⟨op, payload⟩) []
    (isHexDigit_hexDigitUpper _ (by omega)) (isHexDigit_hexDigitUpper _ (by omega))
    (isHexDigit_hexDigitUpper _ (by omega)) (isHexDigit_hexDigitUpper _ (by omega))
    (by cases rtr <;> simp) hall hne
  have hhex4 : bytesFromHex?
      [hexDigitUpper ((encHeader majPrio minPrio cid).sidh.toNat / 16),
       hexDigitUpper ((encHeader majPrio minPrio cid).sidh.toNat % 16),
       hexDigitUpper ((encHeader majPrio minPrio cid).sidl.toNat / 16),
       hexDigitUpper ((encHeader majPrio minPrio cid).sidl.toNat % 16)] =
      some [(encHeader majPrio minPrio cid).sidh.toNat,
        (encHeader majPrio minPrio cid).sidl.toNat] := by
    have hp := bytesFromHex?_pair (encHeader majPrio minPrio cid).sidh.toNat
      (encHeader majPrio minPrio cid).sidl.toNat hs1 hs2
    simpa [byteToHexUpper] using hp
  have hdm : decodeMatch
      ([hexDigitUpper ((encHeader majPrio minPrio cid).sidh.toNat / 16),
        hexDigitUpper ((encHeader majPrio minPrio cid).sidh.toNat % 16),
        hexDigitUpper ((encHeader majPrio minPrio cid).sidl.toNat / 16),
        hexDigitUpper ((encHeader majPrio minPrio cid).sidl.toNat % 16)],
       (if rtr then 82 else 78), Message.ascii ⟨op, payload⟩) =
      .ok ⟨encHeader majPrio minPrio cid, some ⟨op, payload⟩, false⟩ := by
    refine decodeMatch_eq _ _ _ _ _ hhex4 (header_unpack majPrio minPrio cid hcid)
      (bytesFromHex?_message_ascii op payload hbytes) ?_
    exact message_from_bytes_encode op payload hlen
  rw [hnet]
  rw [Frame.from_network_bytes, findallFrames_cons_match hmatch]
  show decodeFrames (_ :: findallFrames []) = _
  rw [show findallFrames [] = [] from rfl]
  simp [decodeFrames, hdm, bind, Except.bind, pure, Except.pure]

/-! Claim theorems. -/

/-- Claim C1 (counterexample): the scanner is not total.  On the input
":S0000N0B;" the single regex match carries the uncatalogued opcode byte
0x0B, so `Frame.from_network_bytes` raises the `OpCode` enum lookup's
`ValueError` instead of returning a sequence. -/
theorem claim_C1_counterexample :
    Frame.from_network_bytes [58, 83, 48, 48, 48, 48, 78, 48, 66, 59] =
      .error .unknownOpcode := by
  rfl

/-- Claim C1 (amended): decoding never fails and yields one frame per match
whenever every regex match in the buffer is well formed — header
major-priority field differing from 3, and an even-length digit run holding
a catalogued opcode byte followed by exactly its payload byte count.  Bytes
outside the matches are skipped silently; a buffer with no match yields the
empty sequence. -/
theorem claim_C1_scanner_amended (data : List Nat)
    (hg : ∀ g ∈ findallFrames data, goodMatch g = true) :
    ∃ fs, Frame.from_network_bytes data = .ok fs ∧
      fs.length = (findallFrames data).length :=
  decodeFrames_ok_of_good (findallFrames data) hg

/-- Witness for C1: a buffer holding noise, one good frame and a trailing
partial frame decodes without error to one frame per match. -/
theorem claim_C1_witness :
    ∃ fs, Frame.from_network_bytes
        ([0, 1, 58] ++ [58, 83, 55, 52, 50, 48, 78, 50, 51, 49, 48, 59] ++ [58, 83]) =
          .ok fs ∧
      fs.length = (findallFrames
        ([0, 1, 58] ++ [58, 83, 55, 52, 50, 48, 78, 50, 51, 49, 48, 59] ++ [58, 83])).length :=
  claim_C1_scanner_amended
    ([0, 1, 58] ++ [58, 83, 55, 52, 50, 48, 78, 50, 51, 49, 48, 59] ++ [58, 83])
    (by decide)

/-- Claim C2 (counterexample): a frame without a message encodes to
":S....N;" whose empty digit run the scanner's pattern rejects, so the round
trip of a message-less frame returns the empty sequence, not a one-element
sequence equal to the original frame. -/
theorem claim_C2_counterexample :
    Frame.from_network_bytes (Frame.net_encoded_frame frameNoMsg) = .ok [] ∧
      ¬∃ f', Frame.from_network_bytes (Frame.net_encoded_frame frameNoMsg) =
          .ok [f'] ∧ Frame.eqPy f' frameNoMsg := by
  have h : Frame.from_network_bytes (Frame.net_encoded_frame frameNoMsg) = .ok [] := by
    rfl
  refine ⟨h, ?_⟩
  rintro ⟨f', hf, -⟩
  rw [h] at hf
  simp at hf

/-- Claim C2 (amended): for every frame that carries a message — header
constructed from any priorities and identifier accepted by the constructor,
message constructed from any catalogued opcode and accepted payload, either
RTR flag — decoding the wire encoding yields exactly one frame equal to the
original under the frame equality of §3, which ignores RTR. -/
theorem claim_C2_roundtrip_amended (majPrio : MajorPriority) (minPrio : MinorPriority)
    (cid : Nat) (op : OpCode) (payload : List Nat) (rtr : Bool)
    (hd : Header) (m : Message)
    (hhd : Header.make? majPrio minPrio (cid : Int) = .ok hd)
    (hm : Message.make? op (some payload) = .ok m)
    (hbytes : ∀ b ∈ payload, b < 256) :
    ∃ f', Frame.from_network_bytes (Frame.net_encoded_frame ⟨hd, some m, rtr⟩) =
        .ok [f'] ∧ Frame.eqPy f' ⟨hd, some m, rtr⟩ := by
  have hcid : cid ≤ 127 := by
    by_contra hlt
    have hgt : (cid : Int) > 127 := by exact_mod_cast Nat.lt_of_not_le hlt
    simp [Header.make?, hgt] at hhd
  have hhd' : hd = encHeader majPrio minPrio cid := by
    rw [header_make?_ok majPrio minPrio cid hcid] at hhd
    injection hhd with h'
    exact h'.symm
  have hlen : payload.length = op.byte_count := by
    by_cases hne : payload.length = op.byte_count
    · exact hne
    · exfalso
      simp [Message.make?, hne] at hm
  have hm' : m = ⟨op, payload⟩ := by
    simp only [Message.make?, hlen, ne_eq, not_true_eq_false, if_neg,
      not_false_eq_true, if_false, Except.ok.injEq] at hm
    exact hm.symm
  subst hhd'
  subst hm'
  exact ⟨_, frame_encode_decode majPrio minPrio cid hcid op payload hlen hbytes rtr,
    ⟨⟨rfl, rfl⟩, rfl⟩⟩

/-- Witness for C2: the spec's request-engine-session example frame, marked
RTR, round trips to a frame equal to it under RTR-ignoring equality. -/
theorem claim_C2_witness :
    ∃ f', Frame.from_network_bytes (Frame.net_encoded_frame
        ⟨⟨.EMERGENCY, .HIGH, 127, 15, 224⟩, some ⟨⟨0x40, by decide⟩, [0, 10]⟩, true⟩) =
        .ok [f'] ∧
      Frame.eqPy f'
        ⟨⟨.EMERGENCY, .HIGH, 127, 15, 224⟩, some ⟨⟨0x40, by decide⟩, [0, 10]⟩, true⟩ :=
  claim_C2_roundtrip_amended .EMERGENCY .HIGH 127 ⟨0x40, by decide⟩ [0, 10] true
    ⟨.EMERGENCY, .HIGH, 127, 15, 224⟩ ⟨⟨0x40, by decide⟩, [0, 10]⟩
    (by decide) (by decide) (by decide)

/-- Claim C3 (code bug): the mode character never selects the RTR flag.
Because `from_network_bytes` compares the bytes-typed regex group with a
str, every decoded frame has a false RTR flag, including those whose mode
character is R. -/
theorem claim_C3_rtr_flag (data : List Nat) (fs : List Frame)
    (h : Frame.from_network_bytes data = .ok fs) : ∀ f ∈ fs, f.rtr = false :=
  decodeFrames_rtr_false (findallFrames data) fs h

/-- Witness for C3: decoding ":S7420R2310;" — mode character R — produces a
frame whose RTR flag is false. -/
theorem claim_C3_witness :
    (⟨⟨.HIGH, .LOW, 33, 116, 32⟩, some ⟨⟨0x23, by decide⟩, [16]⟩, false⟩ : Frame).rtr
      = false :=
  claim_C3_rtr_flag [58, 83, 55, 52, 50, 48, 82, 50, 51, 49, 48, 59]
    [⟨⟨.HIGH, .LOW, 33, 116, 32⟩, some ⟨⟨0x23, by decide⟩, [16]⟩, false⟩]
    (by rfl) _ (by simp)

/-- Claim C4 (counterexample): header decoding is not total on two bytes —
on the pair 0xC0 0x00 the major-priority field is 3, which is not a listed
enum value, so `Header.from_bytes` raises `ValueError`. -/
theorem claim_C4_counterexample :
    Header.from_bytes [192, 0] = .error .invalidPriority := by
  rfl

/-- Claim C4 (amended): on two or more bytes, header decoding ignores all
bytes after the first two, fails (with the enum lookup's `ValueError`)
exactly when the major-priority field of the first byte is 3, and otherwise
succeeds with an in-range source id; on fewer than two bytes it fails from
the missing index. -/
theorem claim_C4_header_decode_amended (b0 b1 : Nat) (hb0 : b0 < 256)
    (hb1 : b1 < 256) (rest : List Nat) :
    (Header.from_bytes (b0 :: b1 :: rest) = Header.from_bytes [b0, b1]) ∧
    ((b0 >>> 6) &&& 3 = 3 →
      Header.from_bytes (b0 :: b1 :: rest) = .error .invalidPriority) ∧
    ((b0 >>> 6) &&& 3 ≠ 3 →
      ∃ hd, Header.from_bytes (b0 :: b1 :: rest) = .ok hd ∧
        0 ≤ hd.canId ∧ hd.canId ≤ 127) ∧
    Header.from_bytes [b0] = .error .insufficientData ∧
    Header.from_bytes ([] : List Nat) = .error .insufficientData := by
  refine ⟨rfl, ?_, ?_, rfl, rfl⟩
  · intro h3
    have hm : MajorPriority.ofValue? ((b0 >>> 6) &&& 3) = none := by
      rw [h3]
      rfl
    simp [Header.from_bytes, hm]
  · intro h3
    exact header_from_bytes_ok b0 b1 rest h3

/-- Witness for C4: the failing major-priority field on 0xC0 0x00 0x07, and
a successful decode of 0x74 0x20 0x09. -/
theorem claim_C4_witness :
    Header.from_bytes [192, 0, 7] = .error .invalidPriority ∧
    (∃ hd, Header.from_bytes [116, 32, 9] = .ok hd ∧
      0 ≤ hd.canId ∧ hd.canId ≤ 127) :=
  ⟨(claim_C4_header_decode_amended 192 0 (by decide) (by decide) [7]).2.1 (by decide),
   (claim_C4_header_decode_amended 116 32 (by decide) (by decide) [9]).2.2.1 (by decide)⟩

/-- Claim C5 (counterexample): the constructor checks only the upper bound.
A negative CAN identifier, here -1, is accepted without error (and yields
out-of-range packed bytes) instead of failing with `InvalidIdentifier`. -/
theorem claim_C5_counterexample :
    Header.make? .NORMAL .NORMAL (-1) = .ok ⟨.NORMAL, .NORMAL, -1, -1, 224⟩ := by
  rfl

/-- Claim C5 (amended): header construction fails with `InvalidIdentifier`
exactly for source ids above 127; every source id at most 127 — including
every negative one — is accepted. -/
theorem claim_C5_source_id_amended (majPrio : MajorPriority)
    (minPrio : MinorPriority) (cid : Int) :
    (127 < cid → Header.make? majPrio minPrio cid = .error .invalidIdentifier) ∧
    (cid ≤ 127 → ∃ hd, Header.make? majPrio minPrio cid = .ok hd ∧ hd.canId = cid) := by
  constructor
  · intro h
    simp [Header.make?, h]
  · intro h
    have hng : ¬(cid > 127) := by omega
    exact ⟨⟨majPrio, minPrio, cid, (Header.makeBytes majPrio minPrio cid).1,
      (Header.makeBytes majPrio minPrio cid).2⟩, by simp [Header.make?, hng], rfl⟩

/-- Witness for C5: source id 200 is rejected; source id 33 is accepted. -/
theorem claim_C5_witness :
    Header.make? .NORMAL .NORMAL 200 = .error .invalidIdentifier ∧
    (∃ hd, Header.make? .HIGH .LOW 33 = .ok hd ∧ hd.canId = 33) :=
  ⟨(claim_C5_source_id_amended .NORMAL .NORMAL 200).1 (by decide),
   (claim_C5_source_id_amended .HIGH .LOW 33).2 (by decide)⟩

/-- Claim C6 (confirmed): for every priority pair and source id at most
127, construction succeeds, and decoding the two packed register bytes it
produces returns a header with the same major priority, minor priority and
source id (indeed the identical header). -/
theorem claim_C6_header_roundtrip (majPrio : MajorPriority)
    (minPrio : MinorPriority) (cid : Nat) (h : cid ≤ 127) :
    ∃ hd, Header.make? majPrio minPrio (cid : Int) = .ok hd ∧
      Header.from_bytes [hd.sidh.toNat, hd.sidl.toNat] = .ok hd ∧
      hd.majorPrio = majPrio ∧ hd.minorPrio = minPrio ∧ hd.canId = (cid : Int) :=
  ⟨encHeader majPrio minPrio cid, header_make?_ok majPrio minPrio cid h,
    header_unpack majPrio minPrio cid h, rfl, rfl, rfl⟩

/-- Witness for C6: the spec's example header (HIGH, LOW, 33). -/
theorem claim_C6_witness :
    ∃ hd, Header.make? .HIGH .LOW ((33 : Nat) : Int) = .ok hd ∧
      Header.from_bytes [hd.sidh.toNat, hd.sidl.toNat] = .ok hd ∧
      hd.majorPrio = .HIGH ∧ hd.minorPrio = .LOW ∧ hd.canId = ((33 : Nat) : Int) :=
  claim_C6_header_roundtrip .HIGH .LOW 33 (by decide)

/-- Claim C7 (confirmed): for every catalogued opcode and payload of exactly
its byte count, decoding the opcode byte followed by the payload yields the
message constructed directly from that opcode and payload. -/
theorem claim_C7_message_roundtrip (op : OpCode) (payload : List Nat)
    (hlen : payload.length = op.byte_count) :
    ∃ m, Message.make? op (some payload) = .ok m ∧
      Message.from_bytes (op.val :: payload) = .ok m :=
  ⟨⟨op, payload⟩, by simp [Message.make?, hlen],
    message_from_bytes_encode op payload hlen⟩

/-- Witness for C7: the test suite's ASOF example, opcode 0x99 with a
4-byte payload. -/
theorem claim_C7_witness :
    ∃ m, Message.make? (⟨0x99, by decide⟩ : OpCode) (some [0, 0, 0, 18]) = .ok m ∧
      Message.from_bytes ((⟨0x99, by decide⟩ : OpCode).val :: [0, 0, 0, 18]) = .ok m :=
  claim_C7_message_roundtrip ⟨0x99, by decide⟩ [0, 0, 0, 18] (by decide)

/-- Claim C8 (confirmed): message construction fails with
`PayloadLengthMismatch` whenever an explicit payload's length differs from
the opcode's byte count; an omitted payload is replaced by a zero-filled
payload of exactly that length; and every successfully constructed message
satisfies the length invariant. -/
theorem claim_C8_payload_length (op : OpCode) :
    (∀ d : List Nat, d.length ≠ op.byte_count →
      Message.make? op (some d) = .error .payloadLengthMismatch) ∧
    (∃ m, Message.make? op none = .ok m ∧
      m.data = List.replicate op.byte_count 0 ∧ m.data.length = op.byte_count) ∧
    (∀ d m, Message.make? op d = .ok m → m.data.length = op.byte_count) := by
  refine ⟨?_, ⟨⟨op, List.replicate op.byte_count 0⟩, rfl, rfl, by simp⟩, ?_⟩
  · intro d hne
    simp [Message.make?, hne]
  · intro d m h
    match d with
    | none =>
      simp only [Message.make?, Except.ok.injEq] at h
      rw [← h]
      simp
    | some pl =>
      by_cases hl : pl.length = op.byte_count
      · simp only [Message.make?, hl, ne_eq, not_true_eq_false, if_neg,
          not_false_eq_true, if_false, Except.ok.injEq] at h
        rw [← h]
        exact hl
      · simp [Message.make?, hl] at h

/-- Witness for C8: ACK (byte count 0) rejects a 1-byte payload and
zero-fills an omitted one; ALOC (byte count 2) accepts a 2-byte payload
which then satisfies the invariant. -/
theorem claim_C8_witness :
    Message.make? (⟨0x00, by decide⟩ : OpCode) (some [1]) =
        .error .payloadLengthMismatch ∧
    (∃ m, Message.make? (⟨0x00, by decide⟩ : OpCode) none = .ok m ∧
      m.data = List.replicate (OpCode.byte_count ⟨0x00, by decide⟩) 0 ∧
      m.data.length = OpCode.byte_count ⟨0x00, by decide⟩) ∧
    (⟨⟨0x43, by decide⟩, [2, 3]⟩ : Message).data.length =
      OpCode.byte_count ⟨0x43, by decide⟩ :=
  ⟨(claim_C8_payload_length ⟨0x00, by decide⟩).1 [1] (by decide),
   (claim_C8_payload_length ⟨0x00, by decide⟩).2.1,
   (claim_C8_payload_length ⟨0x43, by decide⟩).2.2 (some [2, 3])
     ⟨⟨0x43, by decide⟩, [2, 3]⟩ (by decide)⟩

/-- Claim C9 (counterexample): a short module name is padded on the right
with NUL bytes (the `7s` struct format), not on the left: "AB" produces
payload 41 42 00 00 00 00 00. -/
theorem claim_C9_counterexample :
    Message.make_module_name [65, 66] = .ok ⟨nameOpCode, [65, 66, 0, 0, 0, 0, 0]⟩ ∧
      ([65, 66, 0, 0, 0, 0, 0] : List Nat) ≠ [0, 0, 0, 0, 0, 65, 66] := by
  constructor
  · rfl
  · decide

/-- Claim C9 (amended): the module-name constructor always produces exactly
7 payload bytes; a longer name is right-truncated to its first 7 bytes and
a shorter one is padded on the right with zero bytes up to 7. -/
theorem claim_C9_module_name_amended (name : List Nat) :
    ∃ m, Message.make_module_name name = .ok m ∧ m.data.length = 7 ∧
      (7 ≤ name.length → m.data = name.take 7) ∧
      (name.length < 7 → m.data = name ++ List.replicate (7 - name.length) 0) := by
  have hp : ((name.take 7).take 7 ++
      List.replicate (7 - (name.take 7).length) 0).length = 7 := by
    simp only [List.length_append, List.length_take, List.length_replicate]
    omega
  refine ⟨⟨nameOpCode, (name.take 7).take 7 ++
    List.replicate (7 - (name.take 7).length) 0⟩, ?_, hp, ?_, ?_⟩
  · simp [Message.make_module_name, Message.make?, OpCode.byte_count, nameOpCode, hp]
  · intro h7
    have h1 : (name.take 7).length = 7 := by
      simp only [List.length_take]
      omega
    simp [List.take_take, h1]
  · intro h7
    have ht : name.take 7 = name := List.take_of_length_le (by omega)
    simp [ht]

/-- Witness for C9: the name "AB". -/
theorem claim_C9_witness :
    ∃ m, Message.make_module_name [65, 66] = .ok m ∧ m.data.length = 7 := by
  obtain ⟨m, h1, h2, -, -⟩ := claim_C9_module_name_amended [65, 66]
  exact ⟨m, h1, h2⟩

/-- Claim C10 (confirmed): the packed bytes never go stale — after
construction, and after every assignment through the major-priority setter
on any header, the cached sidh and sidl equal the re-encoding of the
header's current fields. -/
theorem claim_C10_header_cache (majPrio : MajorPriority)
    (minPrio : MinorPriority) (cid : Int) (hd : Header)
    (hmk : Header.make? majPrio minPrio cid = .ok hd) :
    ((hd.sidh, hd.sidl) = Header.makeBytes hd.majorPrio hd.minorPrio hd.canId) ∧
    (∀ (hd' : Header) (v : MajorPriority),
      ((hd'.setMajorPriority v).sidh, (hd'.setMajorPriority v).sidl) =
        Header.makeBytes (hd'.setMajorPriority v).majorPrio
          (hd'.setMajorPriority v).minorPrio (hd'.setMajorPriority v).canId) := by
  constructor
  · unfold Header.make? at hmk
    split at hmk
    · cases hmk
    · injection hmk with h'
      rw [← h']
  · intro hd' v
    rfl

/-- Witness for C10: the header (HIGH, LOW, 33). -/
theorem claim_C10_witness :
    (((⟨.HIGH, .LOW, 33, 116, 32⟩ : Header).sidh,
        (⟨.HIGH, .LOW, 33, 116, 32⟩ : Header).sidl) =
      Header.makeBytes (⟨.HIGH, .LOW, 33, 116, 32⟩ : Header).majorPrio
        (⟨.HIGH, .LOW, 33, 116, 32⟩ : Header).minorPrio
        (⟨.HIGH, .LOW, 33, 116, 32⟩ : Header).canId) ∧
    (∀ (hd' : Header) (v : MajorPriority),
      ((hd'.setMajorPriority v).sidh, (hd'.setMajorPriority v).sidl) =
        Header.makeBytes (hd'.setMajorPriority v).majorPrio
          (hd'.setMajorPriority v).minorPrio (hd'.setMajorPriority v).canId) :=
  claim_C10_header_cache .HIGH .LOW 33 ⟨.HIGH, .LOW, 33, 116, 32⟩ (by decide)

end CBus
